import Mathlib

/-!
Verification development for the materialize write-path coordinator
(`src/adapter/src/coord/appends.rs`) and the SQL planner
(`src/materialize/sql/mod.rs`).

The Rust code is shallowly embedded as executable Lean definitions.  Machine
integers are modelled as `Nat`/`Int` (the timestamps in the source are `u64`
milliseconds and never approach overflow in the claims considered here), rows
are modelled as integer tuples (they are opaque to both source files), and
fallible Rust functions returning `Result<_, failure::Error>` become
`Except String _`.
-/

namespace Materialize

/-! ## Embedding of `coord/appends.rs` -/

/-- `mz_repr::GlobalId`: opaque stable identifier of a catalog object. -/
abbrev GlobalId := Nat

/-- `mz_repr::Timestamp`: logical time in milliseconds (`u64` in the source). -/
abbrev Timestamp := Nat

/-- `mz_repr::Diff`: signed multiplicity. -/
abbrev Diff := Int

/-- `mz_repr::Row`: opaque to `appends.rs`; modelled as a tuple of integers. -/
abbrev Row := List Int

/-- `mz_storage::protocol::client::Update { row, diff, timestamp }`. -/
structure Update where
  row : Row
  diff : Diff
  timestamp : Timestamp
deriving DecidableEq

/-- `session::WriteOp { id, rows }`. -/
structure WriteOp where
  id : GlobalId
  rows : List (Row × Diff)
deriving DecidableEq

/-- The pieces of `PendingTxn` are opaque to `appends.rs`; each is modelled as
a token. -/
abbrev ExecuteResponse := Nat

abbrev Session := Nat

abbrev EndTransactionAction := Nat

abbrev ClientTransmitter := Nat

/-- `coord::PendingTxn { client_transmitter, response, session, action }`. -/
structure PendingTxn where
  client_transmitter : ClientTransmitter
  response : ExecuteResponse
  session : Session
  action : EndTransactionAction
deriving DecidableEq

/-- `appends.rs` `PendingWriteTxn`.  Only `is_some` of the Rust
`Option<OwnedMutexGuard<()>>` is observable in this file, so the guard is a
`Bool`. -/
structure PendingWriteTxn where
  writes : List WriteOp
  write_lock_guard : Bool
  pending_txn : PendingTxn
deriving DecidableEq

/-- `PendingWriteTxn::has_write_lock`. -/
def PendingWriteTxn.has_write_lock (t : PendingWriteTxn) : Bool :=
  t.write_lock_guard

/-- `coord::timeline::WriteTimestamp { timestamp, advance_to }`. -/
structure WriteTimestamp where
  timestamp : Timestamp
  advance_to : Timestamp
deriving DecidableEq

/-- The slice of coordinator state that `try_group_commit`/`group_commit`
read and write: the catalog is observed only through
`catalog.try_get_entry(&id).is_some()`, so it is modelled as the list of ids
that have entries; `clock` is the state of the local write timeline. -/
structure CoordState where
  catalog : List GlobalId
  pending_writes : List PendingWriteTxn
  clock : Nat
deriving DecidableEq

/-- Modelled from the spec: the timeline service operation
`get_and_step_local_write_ts` (its implementation lives outside the provided
sources).  Per the spec it atomically returns a pair with
`advance_to > timestamp` and advances the clock past `advance_to`; each call
strictly exceeds every previously returned pair. -/
def get_and_step_local_write_ts (clock : Nat) : WriteTimestamp × Nat :=
  (⟨clock, clock + 1⟩, clock + 1)

/-- Modelled from the spec: `peek_local_ts` returns the next timestamp the
clock would hand out without advancing it. -/
def peek_local_ts (clock : Nat) : Timestamp :=
  clock

/-- Association-list update mirroring
`appends.entry(id).or_default().extend(updates)` on the Rust `HashMap`:
the per-key value lists are what the claims are about (batch order across
distinct keys is unspecified for a `HashMap`, so any deterministic order is a
faithful choice). -/
def insertAppend {α : Type} : List (Nat × List α) → Nat → List α → List (Nat × List α)
  | [], id, ups => [(id, ups)]
  | (k, v) :: rest, id, ups =>
      if k = id then (k, v ++ ups) :: rest else (k, v) :: insertAppend rest id ups

/-- Association-list lookup. -/
def alookup {α : Type} : List (Nat × α) → Nat → Option α
  | [], _ => Option.none
  | (k, v) :: rest, id => if k = id then some v else alookup rest id

/-- Observable effects of a `group_commit`: the (awaited) storage `append`
followed by the client responses, in the order the source performs them. -/
inductive CommitEvent
  | append (batches : List (GlobalId × List Update × Timestamp))
  | respond (tx : ClientTransmitter) (resp : ExecuteResponse) (session : Session)
      (action : EndTransactionAction)
deriving DecidableEq

/-- `Coordinator::group_commit`: drain `pending_writes`, build per-id update
batches at a single freshly stepped timestamp (skipping writes whose target id
has no catalog entry), send one `append` with a common `advance_to`, await its
acknowledgement, then send every drained transaction's buffered response. -/
def group_commit (st : CoordState) : CoordState × List CommitEvent :=
  if st.pending_writes.isEmpty then (st, [])
  else
    let wtc := get_and_step_local_write_ts st.clock
    let wt := wtc.1
    let contributions :=
      (st.pending_writes.flatMap (·.writes)).filterMap fun w =>
        if w.id ∈ st.catalog then
          some (w.id, w.rows.map fun rd => Update.mk rd.1 rd.2 wt.timestamp)
        else Option.none
    let appends := contributions.foldl (fun m p => insertAppend m p.1 p.2) []
    let payload := appends.map fun p => (p.1, p.2, wt.advance_to)
    let responses := st.pending_writes.map (·.pending_txn)
    ({ st with pending_writes := [], clock := wtc.2 },
      CommitEvent.append payload ::
        responses.map fun t =>
          CommitEvent.respond t.client_transmitter t.response t.session t.action)

/-- Which branch `try_group_commit` took. -/
inductive TryCommitAction
  | nothing
  | retry (delay_ms : Nat)
  | commit
  | defer
deriving DecidableEq

/-- `Coordinator::try_group_commit`.  `now` is the value of
`(self.catalog.config().now)()` and `write_lock_free` the outcome of
`write_lock.try_lock_owned()`.  When the peeked timestamp is ahead of `now`
the source spawns a task that sleeps `min(timestamp - now, 1000)` milliseconds
and re-sends `Message::GroupCommit`; this is reported as `retry` (Nat
subtraction is saturating, matching `saturating_sub`). -/
def try_group_commit (st : CoordState) (now : Nat) (write_lock_free : Bool) :
    CoordState × List CommitEvent × TryCommitAction :=
  if st.pending_writes.isEmpty then (st, [], TryCommitAction.nothing)
  else
    let timestamp := peek_local_ts st.clock
    if timestamp > now then
      let remaining_ms := min (timestamp - now) 1000
      (st, [], TryCommitAction.retry remaining_ms)
    else if st.pending_writes.any (·.has_write_lock) then
      let r := group_commit st
      (r.1, r.2, TryCommitAction.commit)
    else if write_lock_free then
      let r := group_commit st
      (r.1, r.2, TryCommitAction.commit)
    else
      (st, [], TryCommitAction.defer)

/-- `catalog::BuiltinTableUpdate { id, row, diff }`. -/
structure BuiltinTableUpdate where
  id : GlobalId
  row : Row
  diff : Diff
deriving DecidableEq

/-- `differential_dataflow::consolidation::consolidate`, by its documented
semantics: sum the diffs of identical rows and drop rows whose net diff is
zero (the physical order of the survivors is irrelevant to every caller
here). -/
def consolidate (updates : List (Row × Diff)) : List (Row × Diff) :=
  (updates.map (·.1)).dedup.filterMap fun r =>
    let s := ((updates.filter fun p => p.1 = r).map (·.2)).sum
    if s = 0 then Option.none else some (r, s)

/-- `Coordinator::send_builtin_table_updates`: step the clock, bucket the
updates per id, consolidate each bucket, drop buckets that became empty,
build `Update`s at the stepped timestamp, and issue a single append with the
common `advance_to` unless the payload is empty.  Returns the new clock and
the append payload (`none` when no append is issued). -/
def send_builtin_table_updates (clock : Nat) (updates : List BuiltinTableUpdate) :
    Nat × Option (List (GlobalId × List Update × Timestamp)) :=
  let wtc := get_and_step_local_write_ts clock
  let wt := wtc.1
  let appends0 := updates.foldl (fun m u => insertAppend m u.id [(u.row, u.diff)]) []
  let appends1 := appends0.map fun p => (p.1, consolidate p.2)
  let appends2 := appends1.filter fun p => !p.2.isEmpty
  let payload := appends2.map fun p =>
    (p.1, p.2.map fun rd => Update.mk rd.1 rd.2 wt.timestamp, wt.advance_to)
  if payload.isEmpty then (wtc.2, Option.none) else (wtc.2, some payload)

/-- The bucket of `(row, diff)` pairs that `send_builtin_table_updates` forms
for one id. -/
def builtin_bucket (updates : List BuiltinTableUpdate) (id : GlobalId) :
    List (Row × Diff) :=
  (updates.filter fun u => u.id = id).map fun u => (u.row, u.diff)

/-- Net diff of one `(id, row)` across a list of builtin table updates. -/
def sum_diff (updates : List BuiltinTableUpdate) (id : GlobalId) (row : Row) : Diff :=
  ((updates.filter fun u => decide (u.id = id ∧ u.row = row)).map (·.diff)).sum

/-- The updates that land in the batch for `id` in a `group_commit` draining
`st.pending_writes`: the rows of all `WriteOp`s targeting `id`, in the FIFO
order in which the pending transactions (and the ops within each) were
drained. -/
def fifo_updates (st : CoordState) (ts : Timestamp) (id : GlobalId) : List Update :=
  ((st.pending_writes.flatMap (·.writes)).filter fun w => w.id = id).flatMap
    fun w => w.rows.map fun rd => Update.mk rd.1 rd.2 ts

/-- The per-id contribution list built while draining the pending writes. -/
def write_contributions (catalog : List GlobalId) (ts : Timestamp)
    (ws : List WriteOp) : List (GlobalId × List Update) :=
  ws.filterMap fun w =>
    if w.id ∈ catalog then
      some (w.id, w.rows.map fun rd => Update.mk rd.1 rd.2 ts)
    else Option.none

/-- The per-id buckets `send_builtin_table_updates` builds before
consolidation. -/
def builtin_appends0 (updates : List BuiltinTableUpdate) :
    List (GlobalId × List (Row × Diff)) :=
  updates.foldl (fun m u => insertAppend m u.id [(u.row, u.diff)]) []

/-- The append payload `send_builtin_table_updates` constructs (issued only
when non-empty). -/
def builtin_payload (clock : Nat) (updates : List BuiltinTableUpdate) :
    List (GlobalId × List Update × Timestamp) :=
  (((builtin_appends0 updates).map (fun p => (p.1, consolidate p.2))).filter
      (fun p => !p.2.isEmpty)).map
    (fun p => (p.1, p.2.map fun rd => Update.mk rd.1 rd.2 clock, clock + 1))

def c1_state : CoordState :=
  ⟨[1], [⟨[⟨1, [([5], 1)]⟩, ⟨2, [([7], 1)]⟩], false, ⟨3, 4, 5, 6⟩⟩], 10⟩

def c2_state : CoordState :=
  ⟨[1, 2], [⟨[⟨1, [([5], 1)]⟩], true, ⟨3, 4, 5, 6⟩⟩,
    ⟨[⟨1, [([6], 1)]⟩, ⟨2, [([7], -1)]⟩], false, ⟨7, 8, 9, 10⟩⟩], 42⟩

def c3_txn : PendingWriteTxn := ⟨[], false, ⟨0, 0, 0, 0⟩⟩

def c3_state_a : CoordState := ⟨[], [c3_txn], 500⟩

def c3_state_b : CoordState := ⟨[], [c3_txn], 10000000⟩

def c4_updates : List BuiltinTableUpdate :=
  [⟨1, [8], 1⟩, ⟨1, [8], -1⟩, ⟨1, [9], 1⟩]

/-! ## Embedding of `sql/mod.rs`

The planner fragment exercised by the claims: literals, column references,
binary operators, BETWEEN, nesting, SELECT bodies over plain table names,
UNION, CREATE VIEW / SELECT / DROP statement handling, and the type
coalescing machinery.  AST constructors whose planning merely bails (CTEs,
subqueries, window functions, …) are omitted from the fragment.  The
`SQLRelationExpr` scope type (`sql/plan.rs`) and the `DataflowStore`
(`sql/store.rs`) are not among the provided sources; where needed they are
modelled from the spec, as marked below. -/

/-- `repr::ScalarType` (the variants referenced by `sql/mod.rs`). -/
inductive ScalarType
  | null
  | bool
  | int32
  | int64
  | float32
  | float64
  | string
  | bytes
  | date
  | time
  | timestamp
  | decimal (scale precision : Nat)
deriving DecidableEq

/-- `repr::ColumnType { name, nullable, scalar_type }`. -/
structure ColumnType where
  name : Option String
  nullable : Bool
  scalar_type : ScalarType
deriving DecidableEq

/-- `repr::RelationType`: the ordered column types of a relation. -/
structure RelationType where
  column_types : List ColumnType
deriving DecidableEq

/-- `repr::Datum` (the variants the planner fragment constructs; float
payloads are modelled as rationals since only their identity matters to the
planner). -/
inductive Datum
  | null
  | dfalse
  | dtrue
  | int32 (i : Int)
  | int64 (i : Int)
  | float32 (r : Rat)
  | float64 (r : Rat)
  | string (s : String)
deriving DecidableEq

/-- `dataflow::func::UnaryFunc` (variants referenced by `sql/mod.rs`). -/
inductive UnaryFunc
  | not
  | isNull
  | negInt32
  | negInt64
  | negFloat32
  | negFloat64
  | absInt32
  | absInt64
  | absFloat32
  | absFloat64
  | castInt32ToFloat32
  | castInt32ToFloat64
  | castInt64ToInt32
  | castInt64ToFloat32
  | castInt64ToFloat64
  | castFloat32ToInt64
  | castFloat32ToFloat64
  | castFloat64ToInt64
deriving DecidableEq

/-- `dataflow::func::BinaryFunc` (variants referenced by `sql/mod.rs`). -/
inductive BinaryFunc
  | addInt32
  | addInt64
  | addFloat32
  | addFloat64
  | subInt32
  | subInt64
  | subFloat32
  | subFloat64
  | mulInt32
  | mulInt64
  | mulFloat32
  | mulFloat64
  | divInt32
  | divInt64
  | divFloat32
  | divFloat64
  | modInt32
  | modInt64
  | modFloat32
  | modFloat64
  | and
  | or
  | lt
  | lte
  | gt
  | gte
  | eq
  | notEq
deriving DecidableEq

/-- `dataflow::ScalarExpr` (the coalesce-only `CallVariadic` variant is
unused by the embedded fragment and omitted).  `sqlIf` is the source's
`If { cond, then, els }`. -/
inductive ScalarExpr
  | column (i : Nat)
  | literal (d : Datum)
  | callUnary (func : UnaryFunc) (expr : ScalarExpr)
  | callBinary (func : BinaryFunc) (expr1 expr2 : ScalarExpr)
  | sqlIf (cond thenExpr elseExpr : ScalarExpr)
deriving DecidableEq

/-- Modelled from the spec: `dataflow::RelationExpr`, the algebraic tree
(the constructors the embedded planner fragment produces). -/
inductive RelationExpr
  | get (name : String)
  | project (input : RelationExpr) (outputs : List Nat)
  | map (input : RelationExpr) (scalars : List ScalarExpr)
  | filter (input : RelationExpr) (predicate : ScalarExpr)
  | join (left right : RelationExpr) (predicate : ScalarExpr)
  | union (left right : RelationExpr)
  | distinct (input : RelationExpr)
deriving DecidableEq

/-- `sqlparser::sqlast::Value` (literal tokens; float literal payloads are
modelled as rationals). -/
inductive Value
  | long (i : Int)
  | double (d : Rat)
  | singleQuotedString (s : String)
  | nationalStringLiteral (s : String)
  | hexStringLiteral (s : String)
  | boolean (b : Bool)
  | date (s : String)
  | time (s : String)
  | timestamp (s : String)
  | interval
  | null
deriving DecidableEq

/-- `sqlparser::sqlast::SQLBinaryOperator` (the variants `plan_binary_op`
handles; the catch-all arm of the source bails on every other variant). -/
inductive SQLBinaryOperator
  | plus
  | minus
  | multiply
  | divide
  | modulus
  | lt
  | ltEq
  | gt
  | gtEq
  | eq
  | notEq
  | and
  | or
deriving DecidableEq

/-- Display string of an operator, used as the `context` argument of
`try_coalesce_types` (`let ctx = op.to_string()`). -/
def SQLBinaryOperator.display : SQLBinaryOperator → String
  | .plus => "+"
  | .minus => "-"
  | .multiply => "*"
  | .divide => "/"
  | .modulus => "%"
  | .lt => "<"
  | .ltEq => "<="
  | .gt => ">"
  | .gtEq => ">="
  | .eq => "="
  | .notEq => "<>"
  | .and => "AND"
  | .or => "OR"

/-- `sqlparser::sqlast::ASTNode` (the expression fragment the claims
exercise). -/
inductive ASTNode
  | sqlValue (v : Value)
  | sqlIdentifier (name : String)
  | sqlBinaryOp (op : SQLBinaryOperator) (left right : ASTNode)
  | sqlBetween (expr low high : ASTNode) (negated : Bool)
  | sqlNested (expr : ASTNode)
deriving DecidableEq

/-- `ExprContext { scope, allow_aggregates }`. -/
structure ExprContext where
  scope : String
  allow_aggregates : Bool

/-- Modelled from the spec: `plan::SQLRelationExpr` (`sql/plan.rs` is not
among the provided sources) — a relation expression under construction
together with its visible columns. -/
structure SQLRelationExpr where
  relation_expr : RelationExpr
  columns : List ColumnType
deriving DecidableEq

/-- Modelled from the spec: `SQLRelationExpr::from_source`. -/
def SQLRelationExpr.from_source (name : String) (column_types : List ColumnType) :
    SQLRelationExpr :=
  ⟨RelationExpr.get name, column_types⟩

/-- Modelled from the spec: `SQLRelationExpr::resolve_column` — the position
and type of the column with the given name; fails when absent or
ambiguous. -/
def SQLRelationExpr.resolve_column (rel : SQLRelationExpr) (name : String) :
    Except String (Nat × ColumnType) :=
  match (rel.columns.enum.filter fun p => decide (p.2.name = some name)) with
  | [] => Except.error "no column with the given name"
  | [p] => Except.ok p
  | _ => Except.error "column name is ambiguous"

/-- Modelled from the spec: `SQLRelationExpr::filter`. -/
def SQLRelationExpr.filter (rel : SQLRelationExpr) (predicate : ScalarExpr) :
    SQLRelationExpr :=
  ⟨RelationExpr.filter rel.relation_expr predicate, rel.columns⟩

/-- Modelled from the spec: `SQLRelationExpr::product` — cross product,
lowered as a join with a constant-true predicate. -/
def SQLRelationExpr.product (left right : SQLRelationExpr) : SQLRelationExpr :=
  ⟨RelationExpr.join left.relation_expr right.relation_expr
      (ScalarExpr.literal Datum.dtrue),
    left.columns ++ right.columns⟩

/-- Modelled from the spec: `SQLRelationExpr::select` — map the output
scalars over the input and project exactly the mapped columns; the visible
columns become the output column types. -/
def SQLRelationExpr.select (rel : SQLRelationExpr)
    (outputs : List (ScalarExpr × ColumnType)) : SQLRelationExpr :=
  ⟨RelationExpr.project (RelationExpr.map rel.relation_expr (outputs.map (·.1)))
      ((List.range outputs.length).map (· + rel.columns.length)),
    outputs.map (·.2)⟩

/-- Modelled from the spec: `SQLRelationExpr::distinct`. -/
def SQLRelationExpr.distinct (rel : SQLRelationExpr) : SQLRelationExpr :=
  ⟨RelationExpr.distinct rel.relation_expr, rel.columns⟩

/-- Modelled from the spec: `SQLRelationExpr::finish`. -/
def SQLRelationExpr.finish (rel : SQLRelationExpr) : RelationExpr × RelationType :=
  (rel.relation_expr, ⟨rel.columns⟩)

/-- `Planner::plan_literal`. -/
def plan_literal (l : Value) : Except String (ScalarExpr × ColumnType) := do
  let (datum, scalar_type) ←
    match l with
    | .long i => Except.ok (Datum.int64 i, ScalarType.int64)
    | .double f => Except.ok (Datum.float64 f, ScalarType.float64)
    | .singleQuotedString s => Except.ok (Datum.string s, ScalarType.string)
    | .nationalStringLiteral _ =>
        Except.error "national string literals are not supported"
    | .hexStringLiteral _ => Except.error "hex string literals are not supported"
    | .boolean b =>
        Except.ok (if b then Datum.dtrue else Datum.dfalse, ScalarType.bool)
    | .date _ => Except.error "DATE literals are not supported"
    | .time _ => Except.error "TIME literals are not supported"
    | .timestamp _ => Except.error "TIMESTAMP literals are not supported"
    | .interval => Except.error "INTERVAL literals are not supported"
    | .null => Except.ok (Datum.null, ScalarType.null)
  let nullable := decide (datum = Datum.null)
  Except.ok (ScalarExpr.literal datum, ⟨Option.none, nullable, scalar_type⟩)

/-- The precedence function `scalar_type_prec` inside `try_coalesce_types`. -/
def scalar_type_prec (scalar_type : ScalarType) : Nat :=
  match scalar_type with
  | .null => 0
  | .int32 => 1
  | .int64 => 2
  | .float32 => 3
  | .float64 => 4
  | _ => 5

/-- The cast-selection match inside the `for` loop of `try_coalesce_types`. -/
def coalesce_cast (from_type to_type : ScalarType) (expr : ScalarExpr) :
    Except String ScalarExpr :=
  match from_type, to_type with
  | .int32, .float32 => Except.ok (ScalarExpr.callUnary .castInt32ToFloat32 expr)
  | .int32, .float64 => Except.ok (ScalarExpr.callUnary .castInt32ToFloat64 expr)
  | .int64, .float32 => Except.ok (ScalarExpr.callUnary .castInt64ToFloat32 expr)
  | .int64, .float64 => Except.ok (ScalarExpr.callUnary .castInt64ToFloat64 expr)
  | .float32, .float64 => Except.ok (ScalarExpr.callUnary .castFloat32ToFloat64 expr)
  | .null, _ => Except.ok expr
  | f, t =>
      if f = t then Except.ok expr
      else Except.error "does not have uniform type"

/-- `try_coalesce_types`: choose the maximum scalar type by precedence
(`Iterator::max_by_key` returns the LAST maximal element, hence the `≤` in
the fold), cast every operand to it, with nullability the disjunction of the
operands.  The source asserts non-emptiness; the empty case is an internal
error here.  The `context` argument only feeds error messages. -/
def try_coalesce_types (exprs : List (ScalarExpr × ColumnType)) (context : String) :
    Except String (List ScalarExpr × ColumnType) :=
  match exprs with
  | [] => Except.error "internal error: coalesce of no expressions"
  | e0 :: rest =>
    let max_scalar_type :=
      (rest.map (·.2.scalar_type)).foldl
        (fun acc t => if scalar_type_prec acc ≤ scalar_type_prec t then t else acc)
        e0.2.scalar_type
    let nullable := (e0 :: rest).any (·.2.nullable)
    match (e0 :: rest).mapM (fun p => coalesce_cast p.2.scalar_type max_scalar_type p.1) with
    | Except.error _ => Except.error (context ++ " does not have uniform type")
    | Except.ok out => Except.ok (out, ⟨Option.none, nullable, max_scalar_type⟩)

/-- The operators for which `plan_binary_op` runs `try_coalesce_types` on its
operands before overload selection (taken verbatim from the `if` chain in the
source: `%`, `AND` and `OR` are absent). -/
def coalesced_ops : List SQLBinaryOperator :=
  [.plus, .minus, .multiply, .divide, .lt, .ltEq, .gt, .gtEq, .eq, .notEq]

/-- Overload selection of `plan_binary_op`: the big `match op` on the (by
then possibly coalesced) operand types, returning the `BinaryFunc` and the
result scalar type. -/
def binary_op_overload (op : SQLBinaryOperator) (ltype rtype : ColumnType) :
    Except String (BinaryFunc × ScalarType) :=
  match op with
  | .and | .or =>
      if ltype.scalar_type ≠ ScalarType.bool ∧ ltype.scalar_type ≠ ScalarType.null then
        Except.error "cannot apply operator to non-boolean type"
      else if rtype.scalar_type ≠ ScalarType.bool ∧ rtype.scalar_type ≠ ScalarType.null then
        Except.error "cannot apply operator to non-boolean type"
      else
        Except.ok (if op = .and then (BinaryFunc.and, ScalarType.bool)
                   else (BinaryFunc.or, ScalarType.bool))
  | .plus =>
      match ltype.scalar_type, rtype.scalar_type with
      | .int32, .int32 => Except.ok (BinaryFunc.addInt32, ScalarType.int32)
      | .int64, .int64 => Except.ok (BinaryFunc.addInt64, ScalarType.int64)
      | .float32, .float32 => Except.ok (BinaryFunc.addFloat32, ScalarType.float32)
      | .float64, .float64 => Except.ok (BinaryFunc.addFloat64, ScalarType.float64)
      | _, _ => Except.error "no overload for the addition operand types"
  | .minus =>
      match ltype.scalar_type, rtype.scalar_type with
      | .int32, .int32 => Except.ok (BinaryFunc.subInt32, ScalarType.int32)
      | .int64, .int64 => Except.ok (BinaryFunc.subInt64, ScalarType.int64)
      | .float32, .float32 => Except.ok (BinaryFunc.subFloat32, ScalarType.float32)
      | .float64, .float64 => Except.ok (BinaryFunc.subFloat64, ScalarType.float64)
      | _, _ => Except.error "no overload for the subtraction operand types"
  | .multiply =>
      match ltype.scalar_type, rtype.scalar_type with
      | .int32, .int32 => Except.ok (BinaryFunc.mulInt32, ScalarType.int32)
      | .int64, .int64 => Except.ok (BinaryFunc.mulInt64, ScalarType.int64)
      | .float32, .float32 => Except.ok (BinaryFunc.mulFloat32, ScalarType.float32)
      | .float64, .float64 => Except.ok (BinaryFunc.mulFloat64, ScalarType.float64)
      | _, _ => Except.error "no overload for the multiplication operand types"
  | .divide =>
      match ltype.scalar_type, rtype.scalar_type with
      | .int32, .int32 => Except.ok (BinaryFunc.divInt32, ScalarType.int32)
      | .int64, .int64 => Except.ok (BinaryFunc.divInt64, ScalarType.int64)
      | .float32, .float32 => Except.ok (BinaryFunc.divFloat32, ScalarType.float32)
      | .float64, .float64 => Except.ok (BinaryFunc.divFloat64, ScalarType.float64)
      | _, _ => Except.error "no overload for the division operand types"
  | .modulus =>
      match ltype.scalar_type, rtype.scalar_type with
      | .int32, .int32 => Except.ok (BinaryFunc.modInt32, ScalarType.int32)
      | .int64, .int64 => Except.ok (BinaryFunc.modInt64, ScalarType.int64)
      | .float32, .float32 => Except.ok (BinaryFunc.modFloat32, ScalarType.float32)
      | .float64, .float64 => Except.ok (BinaryFunc.modFloat64, ScalarType.float64)
      | _, _ => Except.error "no overload for the modulus operand types"
  | .lt | .ltEq | .gt | .gtEq | .eq | .notEq =>
      if ltype.scalar_type ≠ rtype.scalar_type ∧ ltype.scalar_type ≠ ScalarType.null
          ∧ rtype.scalar_type ≠ ScalarType.null then
        Except.error "the operand types are not comparable"
      else
        Except.ok
          (match op with
            | .lt => BinaryFunc.lt
            | .ltEq => BinaryFunc.lte
            | .gt => BinaryFunc.gt
            | .gtEq => BinaryFunc.gte
            | .eq => BinaryFunc.eq
            | _ => BinaryFunc.notEq,
           ScalarType.bool)

/-- `Planner::plan_binary_op`, taking the two operands already planned (its
first two lines plan the operand ASTs; `plan_expr` below performs those
recursive calls and hands the results to this function).  For the operators
in `coalesced_ops` the operands are coalesced to a common type first; the
result is nullable when either operand is, or when the chosen function is an
integer division. -/
def plan_binary_op (op : SQLBinaryOperator)
    (l r : ScalarExpr × ColumnType) : Except String (ScalarExpr × ColumnType) := do
  let (lexpr, ltype, rexpr, rtype) ←
    if op ∈ coalesced_ops then
      match try_coalesce_types [l, r] op.display with
      | Except.error e => Except.error e
      | Except.ok (exprs, typ) =>
          match exprs with
          | [le, re] => Except.ok (le, typ, re, typ)
          | _ => Except.error "internal error: coalesce arity"
    else Except.ok (l.1, l.2, r.1, r.2)
  let (func, scalar_type) ← binary_op_overload op ltype rtype
  let is_integer_div := func = BinaryFunc.divInt32 ∨ func = BinaryFunc.divInt64
  Except.ok (ScalarExpr.callBinary func lexpr rexpr,
    ⟨Option.none, ltype.nullable || rtype.nullable || decide is_integer_div,
      scalar_type⟩)

/-- The AST that `Planner::plan_between` constructs and re-plans:
`x ≥ low AND x ≤ high`, or `x < low OR x > high` when negated. -/
def betweenAst (expr low high : ASTNode) (negated : Bool) : ASTNode :=
  let lowNode := ASTNode.sqlBinaryOp (if negated then .lt else .gtEq) expr low
  let highNode := ASTNode.sqlBinaryOp (if negated then .gt else .ltEq) expr high
  ASTNode.sqlBinaryOp (if negated then .or else .and) lowNode highNode

/-- `Planner::plan_expr` on the embedded AST fragment.  The `sqlBetween`
case of the source calls `plan_between`, which builds `betweenAst` and
re-plans it; that round trip is inlined here (the lemma
`plan_expr_between` below shows the two agree), keeping the recursion
structural. -/
def plan_expr (ctx : ExprContext) (e : ASTNode) (rel : SQLRelationExpr) :
    Except String (ScalarExpr × ColumnType) :=
  match e with
  | .sqlIdentifier name => do
      let (i, typ) ← rel.resolve_column name
      Except.ok (ScalarExpr.column i, typ)
  | .sqlValue v => plan_literal v
  | .sqlBinaryOp op left right => do
      let lres ← plan_expr ctx left rel
      let rres ← plan_expr ctx right rel
      plan_binary_op op lres rres
  | .sqlBetween expr low high negated => do
      let x1 ← plan_expr ctx expr rel
      let y1 ← plan_expr ctx low rel
      let lowRes ← plan_binary_op (if negated then .lt else .gtEq) x1 y1
      let x2 ← plan_expr ctx expr rel
      let y2 ← plan_expr ctx high rel
      let highRes ← plan_binary_op (if negated then .gt else .ltEq) x2 y2
      plan_binary_op (if negated then .or else .and) lowRes highRes
  | .sqlNested inner => plan_expr ctx inner rel

/-- `Planner::plan_between`: build the lowered comparison AST and plan it. -/
def plan_between (ctx : ExprContext) (expr low high : ASTNode) (negated : Bool)
    (rel : SQLRelationExpr) : Except String (ScalarExpr × ColumnType) :=
  plan_expr ctx (betweenAst expr low high negated) rel

/-- `dataflow::SourceConnector`: local (a table) or Kafka. -/
inductive SourceConnector
  | localConnector
  | kafka (addr topic : String)
deriving DecidableEq

/-- `dataflow::Source`. -/
structure Source where
  name : String
  connector : SourceConnector
  typ : RelationType
deriving DecidableEq

/-- `dataflow::Sink { name, from: (name, typ), connector }` (the Kafka
connector payload is irrelevant to the claims and omitted). -/
structure Sink where
  name : String
  from_name : String
  from_typ : RelationType
deriving DecidableEq

/-- `dataflow::View { name, relation_expr, typ }`. -/
structure View where
  name : String
  relation_expr : RelationExpr
  typ : RelationType
deriving DecidableEq

/-- `dataflow::Dataflow`. -/
inductive Dataflow
  | source (s : Source)
  | sink (s : Sink)
  | view (v : View)
deriving DecidableEq

/-- Name of a dataflow. -/
def Dataflow.name : Dataflow → String
  | .source s => s.name
  | .sink s => s.name
  | .view v => v.name

/-- `Dataflow::typ`. -/
def Dataflow.typ : Dataflow → RelationType
  | .source s => s.typ
  | .sink s => s.from_typ
  | .view v => v.typ

/-- Names of the `Get` leaves of a relation expression (the objects a view
reads). -/
def RelationExpr.usesNames : RelationExpr → List String
  | .get name => [name]
  | .project input _ => input.usesNames
  | .map input _ => input.usesNames
  | .filter input _ => input.usesNames
  | .join left right _ => left.usesNames ++ right.usesNames
  | .union left right => left.usesNames ++ right.usesNames
  | .distinct input => input.usesNames

/-- Modelled from the spec: the names a dataflow depends on (the dependency
index of the store). -/
def Dataflow.uses : Dataflow → List String
  | .source _ => []
  | .sink s => [s.from_name]
  | .view v => v.relation_expr.usesNames

/-- Modelled from the spec: `store::DataflowStore`, a name-to-dataflow
mapping (`sql/store.rs` is not among the provided sources). -/
structure DataflowStore where
  dataflows : List Dataflow
deriving DecidableEq

/-- Modelled from the spec: `DataflowStore::get` fails on an unknown name. -/
def DataflowStore.get (store : DataflowStore) (name : String) :
    Except String Dataflow :=
  match store.dataflows.find? (fun d => d.name == name) with
  | some d => Except.ok d
  | Option.none => Except.error "unknown dataflow"

/-- `DataflowStore::get_type`. -/
def DataflowStore.get_type (store : DataflowStore) (name : String) :
    Except String RelationType :=
  (store.get name).map Dataflow.typ

/-- `store::RemoveMode`. -/
inductive RemoveMode
  | restrict
  | cascade
deriving DecidableEq

/-- `RemoveMode::from_cascade`. -/
def RemoveMode.from_cascade (cascade : Bool) : RemoveMode :=
  if cascade then RemoveMode.cascade else RemoveMode.restrict

/-- Modelled from the spec: one closure step of cascade removal — add every
dataflow that depends on a name already marked for removal. -/
def cascade_step (store : List Dataflow) (names : List String) : List String :=
  names ++
    ((store.filter fun d =>
        !(names.contains d.name) && d.uses.any (fun n => names.contains n)).map
      (·.name))

/-- Modelled from the spec: the transitive closure of dependents, computed
with fuel (one step per store entry suffices). -/
def cascade_names : Nat → List Dataflow → List String → List String
  | 0, _, names => names
  | fuel + 1, store, names => cascade_names fuel store (cascade_step store names)

/-- Modelled from the spec: `DataflowStore::remove`.  In `Restrict` mode the
removal fails while any other object depends on the name; in `Cascade` mode
the transitive closure of dependents is removed as well.  Returns the updated
store and the removed dataflows (the source appends them to its `removed`
output vector). -/
def DataflowStore.remove (store : DataflowStore) (name : String)
    (mode : RemoveMode) : Except String (DataflowStore × List Dataflow) :=
  match mode with
  | .restrict =>
      if store.dataflows.any (fun d => (d.name != name) && d.uses.contains name) then
        Except.error "cannot remove a dataflow that other dataflows depend on"
      else
        Except.ok (⟨store.dataflows.filter fun d => d.name != name⟩,
          store.dataflows.filter fun d => d.name == name)
  | .cascade =>
      let names := cascade_names store.dataflows.length store.dataflows [name]
      Except.ok (⟨store.dataflows.filter fun d => !(names.contains d.name)⟩,
        store.dataflows.filter fun d => names.contains d.name)

/-- `sql::Planner { dataflows }`. -/
structure Planner where
  dataflows : DataflowStore
deriving DecidableEq

/-- `Planner::mock`: a planner whose store holds one local source per
`(name, typ)` pair. -/
def Planner.mock (dataflows : List (String × RelationType)) : Planner :=
  ⟨⟨dataflows.map fun p =>
      Dataflow.source ⟨p.1, SourceConnector.localConnector, p.2⟩⟩⟩

/-- `extract_sql_object_name`: a compound object name must have exactly one
component. -/
def extract_sql_object_name (n : List String) : Except String String :=
  match n with
  | [s] => Except.ok s
  | _ => Except.error "qualified names are not yet supported"

/-- `sqlparser::sqlast::SQLSelectItem` (the fragment without wildcards). -/
inductive SQLSelectItem
  | unnamedExpression (e : ASTNode)
  | expressionWithAlias (expr : ASTNode) (aliasName : String)
deriving DecidableEq

/-- `sqlparser::sqlast::SQLSelect`, restricted to the fragment the claims
exercise: a projection, a FROM list of plain table names (joins, aliases and
derived tables are outside the fragment), an optional WHERE, and DISTINCT.
An empty FROM list is planned against the one-row `dual` source.  GROUP
BY/HAVING are outside the fragment (no aggregate AST nodes exist in it). -/
structure SQLSelect where
  projection : List SQLSelectItem
  fromNames : List String
  selection : Option ASTNode
  distinct : Bool
deriving DecidableEq

/-- `sqlparser::sqlast::SQLSetExpr`: a select body or a UNION (the source
bails on every other set operation). -/
inductive SQLSetExpr
  | select (s : SQLSelect)
  | setOperationUnion (all : Bool) (left right : SQLSetExpr)
deriving DecidableEq

/-- `sqlparser::sqlast::SQLQuery`: the body plus emptiness flags for the
clauses `plan_view_query` rejects. -/
structure SQLQuery where
  has_ctes : Bool
  has_order_by : Bool
  has_limit : Bool
  body : SQLSetExpr
deriving DecidableEq

/-- `Planner::plan_table_factor` for a plain table name: look the name up
in the store and expose its columns. -/
def plan_table_ref (p : Planner) (name : String) : Except String SQLRelationExpr := do
  let typ ← p.dataflows.get_type name
  Except.ok (SQLRelationExpr.from_source name typ.column_types)

/-- `Planner::plan_select_item` on the embedded fragment. -/
def plan_select_item (item : SQLSelectItem) (relation_expr : SQLRelationExpr) :
    Except String (List (ScalarExpr × ColumnType)) :=
  let ctx : ExprContext := ⟨"SELECT projection", true⟩
  match item with
  | .unnamedExpression e => do
      let res ← plan_expr ctx e relation_expr
      Except.ok [res]
  | .expressionWithAlias e aliasName => do
      let (expr, typ) ← plan_expr ctx e relation_expr
      Except.ok [(expr, { typ with name := some aliasName })]

/-- `Planner::plan_view_select` on the embedded fragment: FROM (folded by
cross product, `dual` when empty), WHERE (boolean required), projection,
DISTINCT. -/
def plan_view_select (p : Planner) (s : SQLSelect) :
    Except String (RelationExpr × RelationType) := do
  let relation_expr ←
    match s.fromNames with
    | [] => plan_table_ref p "dual"
    | t :: rest => do
        let first ← plan_table_ref p t
        rest.foldlM (fun acc name => do
          let r ← plan_table_ref p name
          Except.ok (acc.product r)) first
  let relation_expr ←
    match s.selection with
    | Option.none => Except.ok relation_expr
    | some selection => do
        let ctx : ExprContext := ⟨"WHERE clause", false⟩
        let (expr, typ) ← plan_expr ctx selection relation_expr
        if typ.scalar_type = ScalarType.bool then
          Except.ok (relation_expr.filter expr)
        else Except.error "WHERE clause must have boolean type"
  let outputs ← s.projection.foldlM (fun acc item => do
      let res ← plan_select_item item relation_expr
      Except.ok (acc ++ res)) ([] : List (ScalarExpr × ColumnType))
  let relation_expr := relation_expr.select outputs
  let relation_expr := if s.distinct then relation_expr.distinct else relation_expr
  Except.ok relation_expr.finish

/-- `Planner::plan_set_expr`: a select body, or a UNION whose operand types
must match exactly per column; UNION ALL keeps duplicates, plain UNION wraps
in Distinct; output nullability is the disjunction and names come from the
left. -/
def plan_set_expr (p : Planner) : SQLSetExpr → Except String (RelationExpr × RelationType)
  | .select s => plan_view_select p s
  | .setOperationUnion all left right => do
      let (left_relation_expr, left_type) ← plan_set_expr p left
      let (right_relation_expr, right_type) ← plan_set_expr p right
      let relation_expr := RelationExpr.union left_relation_expr right_relation_expr
      let relation_expr :=
        if all then relation_expr else RelationExpr.distinct relation_expr
      let left_types := left_type.column_types
      let right_types := right_type.column_types
      if left_types.length ≠ right_types.length then
        Except.error "Each UNION should have the same number of columns"
      else if (left_types.zip right_types).any
          (fun lr => lr.1.scalar_type != lr.2.scalar_type) then
        Except.error "Each UNION should have the same column types"
      else
        match (left_types.zip right_types).mapM (fun lr =>
            if lr.1.scalar_type != lr.2.scalar_type then
              Except.error "Each UNION should have the same column types"
            else
              Except.ok (ColumnType.mk lr.1.name (lr.1.nullable || lr.2.nullable)
                lr.1.scalar_type)) with
        | Except.error e => Except.error e
        | Except.ok types =>
            Except.ok (relation_expr, RelationType.mk types)

/-- `Planner::plan_view_query`: reject CTEs, LIMIT and ORDER BY, then plan
the body. -/
def plan_view_query (p : Planner) (q : SQLQuery) :
    Except String (RelationExpr × RelationType) :=
  if q.has_ctes then Except.error "CTEs are not yet supported"
  else if q.has_limit then Except.error "LIMIT is not supported in a view definition"
  else if q.has_order_by then
    Except.error "ORDER BY is not supported in a view definition"
  else plan_set_expr p q.body

/-- `sqlparser::sqlast::SQLStatement` (the fragment the claims exercise;
`with_options` is observed only through `is_empty`). -/
inductive SQLStatement
  | createView (name : List String) (columns : List String) (query : SQLQuery)
      (materialized : Bool) (with_options_nonempty : Bool)
  | drop (object_type : Nat) (if_exists : Bool) (names : List (List String))
      (cascade : Bool)
deriving DecidableEq

/-- `Planner::plan_statement` on the embedded fragment (of the DDL variants
the source plans, `CREATE VIEW` is the one the claims exercise; all other
statements fall to the catch-all `bail!`). -/
def plan_statement (p : Planner) (stmt : SQLStatement) : Except String Dataflow :=
  match stmt with
  | .createView name columns query _materialized with_options_nonempty =>
      if with_options_nonempty then Except.error "WITH options are not yet supported"
      else do
        let (relation_expr, typ) ← plan_view_query p query
        let typ ←
          if columns.isEmpty then Except.ok typ
          else if columns.length ≠ typ.column_types.length then
            Except.error "VIEW definition and query have different numbers of columns"
          else
            Except.ok (RelationType.mk ((typ.column_types.zip columns).map fun tc =>
              { tc.1 with name := some tc.2 }))
        let viewName ← extract_sql_object_name name
        Except.ok (Dataflow.view ⟨viewName, relation_expr, typ⟩)
  | _ => Except.error "Unsupported statement"

/-- `glue::SqlResponse` (the variants the embedded handlers produce). -/
inductive SqlResponse
  | createdView
  | droppedSource
  | droppedTable
  | droppedView
  | peeking (typ : RelationType)
deriving DecidableEq

/-- `glue::DataflowCommand` (the variants the embedded handlers produce). -/
inductive DataflowCommand
  | createDataflow (d : Dataflow)
  | dropDataflows (ds : List Dataflow)
  | peekExisting (d : Dataflow)
  | peekTransient (v : View)
deriving DecidableEq

/-- `Planner::handle_select`.  The source draws `id: u64 = rand::random()`;
the draw is modelled as the explicit `randomId` argument, so two independent
invocations are two applications at (possibly) different ids. -/
def handle_select (p : Planner) (query : SQLQuery) (randomId : Nat) :
    Except String (SqlResponse × DataflowCommand) := do
  let name := "<temp_" ++ toString randomId ++ ">"
  let dataflow ← plan_statement p
    (SQLStatement.createView [name] [] query true false)
  match dataflow with
  | .view v => Except.ok (SqlResponse.peeking v.typ, DataflowCommand.peekTransient v)
  | _ => Except.error "panic: got a non-view dataflow for a SELECT"

/-- `sqlparser::sqlast::SQLObjectType` (the variants `handle_drop_dataflow`
matches on; every variant other than the first three falls into the
`unreachable!()` arm). -/
inductive SQLObjectType
  | source
  | table
  | view
  | sink
deriving DecidableEq

/-- Outcome of `handle_drop_dataflow`: a response, a planning error, or the
`unreachable!()` panic. -/
inductive PlanOutcome
  | ok (resp : SqlResponse) (cmd : Option DataflowCommand)
  | err (msg : String)
  | panic
deriving DecidableEq

/-- The removal loop of `handle_drop_dataflow`: remove each name in turn,
threading the store; an error mid-loop leaves the removals already performed
in place. -/
def drop_loop (mode : RemoveMode) :
    List String → DataflowStore → List Dataflow →
      DataflowStore × Except String (List Dataflow)
  | [], store, removed => (store, Except.ok removed)
  | n :: rest, store, removed =>
      match store.remove n mode with
      | Except.error e => (store, Except.error e)
      | Except.ok (store', newly) => drop_loop mode rest store' (removed ++ newly)

/-- `Planner::handle_drop_dataflow`: extract the object names, verify
existence unless `IF EXISTS`, remove each name (mutating the store), and
build the response — whose `match object_type` has arms only for `Source`,
`Table` and `View` and hits `unreachable!()` for everything else, after the
removals have already happened. -/
def handle_drop_dataflow (p : Planner) (object_type : SQLObjectType)
    (if_exists : Bool) (names : List (List String)) (cascade : Bool) :
    Planner × PlanOutcome :=
  match names.mapM extract_sql_object_name with
  | Except.error e => (p, PlanOutcome.err e)
  | Except.ok nameStrs =>
    let verify : Except String Unit :=
      if if_exists then Except.ok ()
      else nameStrs.foldlM (fun _ n => (p.dataflows.get n).map fun _ => ()) ()
    match verify with
    | Except.error e => (p, PlanOutcome.err e)
    | Except.ok _ =>
      let mode := RemoveMode.from_cascade cascade
      match drop_loop mode nameStrs p.dataflows [] with
      | (store', Except.error e) => (⟨store'⟩, PlanOutcome.err e)
      | (store', Except.ok removed) =>
        let cmd := some (DataflowCommand.dropDataflows removed)
        match object_type with
        | .source => (⟨store'⟩, PlanOutcome.ok SqlResponse.droppedSource cmd)
        | .table => (⟨store'⟩, PlanOutcome.ok SqlResponse.droppedTable cmd)
        | .view => (⟨store'⟩, PlanOutcome.ok SqlResponse.droppedView cmd)
        | .sink => (⟨store'⟩, PlanOutcome.panic)

/-! ### Spec-side helpers and concrete instances for the planner claims -/

/-- The numeric scalar types of the coalescing ladder. -/
def numeric_types : List ScalarType :=
  [ScalarType.int32, ScalarType.int64, ScalarType.float32, ScalarType.float64]

/-- Spec-side reading: the maximum of two scalar types by precedence, with
ties resolved to the second operand exactly as the fold inside
`try_coalesce_types` does. -/
def max_numeric (a b : ScalarType) : ScalarType :=
  if scalar_type_prec a ≤ scalar_type_prec b then b else a

/-- Spec-side reading: the cast `try_coalesce_types` inserts (identity when
no cast is needed). -/
def cast_to (from_type to_type : ScalarType) (e : ScalarExpr) : ScalarExpr :=
  match coalesce_cast from_type to_type e with
  | Except.ok cast => cast
  | Except.error _ => e

/-- Spec-side reading: the overload the source selects for an arithmetic
operator at a numeric operand type. -/
def arith_func (op : SQLBinaryOperator) (st : ScalarType) : BinaryFunc :=
  match op, st with
  | .plus, .int32 => .addInt32
  | .plus, .int64 => .addInt64
  | .plus, .float32 => .addFloat32
  | .plus, _ => .addFloat64
  | .minus, .int32 => .subInt32
  | .minus, .int64 => .subInt64
  | .minus, .float32 => .subFloat32
  | .minus, _ => .subFloat64
  | .multiply, .int32 => .mulInt32
  | .multiply, .int64 => .mulInt64
  | .multiply, .float32 => .mulFloat32
  | .multiply, _ => .mulFloat64
  | .divide, .int32 => .divInt32
  | .divide, .int64 => .divInt64
  | .divide, .float32 => .divFloat32
  | _, _ => .divFloat64

/-- Spec-side reading: the modulus overload at a numeric type. -/
def mod_func (st : ScalarType) : BinaryFunc :=
  match st with
  | .int32 => .modInt32
  | .int64 => .modInt64
  | .float32 => .modFloat32
  | _ => .modFloat64

/-- A planner whose store holds only the one-row `dual` source. -/
def dual_planner : Planner :=
  Planner.mock [("dual", ⟨[]⟩)]

/-- The set-expression body of `SELECT <literal>`. -/
def select_value (v : Value) : SQLSetExpr :=
  SQLSetExpr.select
    ⟨[SQLSelectItem.unnamedExpression (ASTNode.sqlValue v)], [], Option.none,
      false⟩

/-- The body of `SELECT 1 UNION SELECT 1.0`. -/
def union_int_float : SQLSetExpr :=
  SQLSetExpr.setOperationUnion false (select_value (Value.long 1))
    (select_value (Value.double 1))

/-- The body of the query `SELECT 1 UNION SELECT a-string`. -/
def union_int_string : SQLSetExpr :=
  SQLSetExpr.setOperationUnion false (select_value (Value.long 1))
    (select_value (Value.singleQuotedString "a"))

/-- A two-column relation `t(x BIGINT NOT NULL, y BIGINT NOT NULL)`. -/
def c6_rel : SQLRelationExpr :=
  SQLRelationExpr.from_source "t"
    [⟨some "x", false, ScalarType.int64⟩, ⟨some "y", false, ScalarType.int64⟩]

/-- A two-column relation with an Int32 and an Int64 column. -/
def c6_rel_mixed : SQLRelationExpr :=
  SQLRelationExpr.from_source "t"
    [⟨some "x", false, ScalarType.int32⟩, ⟨some "y", false, ScalarType.int64⟩]

def c6_ctx : ExprContext := ⟨"SELECT projection", true⟩

/-- The query `SELECT 1`. -/
def c9_query : SQLQuery := ⟨false, false, false, select_value (Value.long 1)⟩

/-- A store holding a local source and a sink reading from it. -/
def c10_planner : Planner :=
  ⟨⟨[Dataflow.source ⟨"src", SourceConnector.localConnector, ⟨[]⟩⟩,
     Dataflow.sink ⟨"snk", "src", ⟨[]⟩⟩]⟩⟩

/-- Decidable equality of `Except` results, for concrete evaluation. -/
instance {ε α : Type} [DecidableEq ε] [DecidableEq α] :
    DecidableEq (Except ε α)
  | Except.error e, Except.error f =>
      if h : e = f then Decidable.isTrue (congrArg Except.error h)
      else Decidable.isFalse (fun hh => h (Except.error.inj hh))
  | Except.error _, Except.ok _ =>
      Decidable.isFalse (fun hh => Except.noConfusion hh)
  | Except.ok _, Except.error _ =>
      Decidable.isFalse (fun hh => Except.noConfusion hh)
  | Except.ok a, Except.ok b =>
      if h : a = b then Decidable.isTrue (congrArg Except.ok h)
      else Decidable.isFalse (fun hh => h (Except.ok.inj hh))

/-! ## Helper lemmas about association-list grouping -/

theorem alookup_insertAppend_self {α : Type} (m : List (Nat × List α)) (id : Nat)
    (ups : List α) :
    alookup (insertAppend m id ups) id = some ((alookup m id).getD [] ++ ups) := by
  induction m with
  | nil => simp [insertAppend, alookup]
  | cons hd tl ih =>
      obtain ⟨k, v⟩ := hd
      by_cases hk : k = id
      · subst hk
        simp [insertAppend, alookup]
      · simp [insertAppend, alookup, hk, ih]

theorem alookup_insertAppend_other {α : Type} (m : List (Nat × List α)) (id k : Nat)
    (ups : List α) (h : k ≠ id) :
    alookup (insertAppend m id ups) k = alookup m k := by
  induction m with
  | nil => simp [insertAppend, alookup, Ne.symm h]
  | cons hd tl ih =>
      obtain ⟨k', v⟩ := hd
      by_cases hk : k' = id
      · subst hk
        simp [insertAppend, alookup, Ne.symm h]
      · simp [insertAppend, alookup, hk, ih]

theorem alookup_foldl_insertAppend {α : Type} (l : List (Nat × List α))
    (m : List (Nat × List α)) (k : Nat) :
    (alookup (l.foldl (fun m p => insertAppend m p.1 p.2) m) k).getD [] =
      (alookup m k).getD [] ++ ((l.filter fun p => p.1 = k).map (·.2)).flatten := by
  induction l generalizing m with
  | nil => simp
  | cons hd tl ih =>
      obtain ⟨id, ups⟩ := hd
      by_cases hk : id = k
      · subst hk
        simp [ih, alookup_insertAppend_self, List.filter_cons, List.append_assoc]
      · simp [ih, alookup_insertAppend_other _ _ _ _ (Ne.symm hk),
          List.filter_cons, hk]

theorem alookup_foldl_mem_keys {α : Type} (l : List (Nat × List α))
    (m : List (Nat × List α)) (k : Nat) (vs : List α)
    (h : alookup (l.foldl (fun m p => insertAppend m p.1 p.2) m) k = some vs) :
    (alookup m k).isSome ∨ k ∈ l.map (·.1) := by
  induction l generalizing m with
  | nil => exact Or.inl (by simp [List.foldl_nil] at h; simp [h])
  | cons hd tl ih =>
      obtain ⟨id, ups⟩ := hd
      by_cases hk : id = k
      · exact Or.inr (by simp [hk])
      · rcases ih (insertAppend m id ups) (by simpa using h) with h' | h'
        · rw [alookup_insertAppend_other _ _ _ _ (Ne.symm hk)] at h'
          exact Or.inl h'
        · exact Or.inr (by simp [h'])

theorem alookup_isSome_of_mem {α : Type} (m : List (Nat × List α)) (k : Nat)
    (h : k ∈ m.map (·.1)) : (alookup m k).isSome := by
  induction m with
  | nil => simp at h
  | cons hd tl ih =>
      obtain ⟨k', v⟩ := hd
      by_cases hk : k' = k
      · simp [alookup, hk]
      · simp only [List.map_cons, List.mem_cons] at h
        rcases h with h | h
        · exact absurd h.symm hk
        · simp [alookup, hk, ih h]

theorem map_fst_insertAppend {α : Type} (m : List (Nat × List α)) (id : Nat)
    (ups : List α) :
    (insertAppend m id ups).map (·.1) =
      if (alookup m id).isSome then m.map (·.1) else m.map (·.1) ++ [id] := by
  induction m with
  | nil => simp [insertAppend, alookup]
  | cons hd tl ih =>
      obtain ⟨k, v⟩ := hd
      by_cases hk : k = id
      · subst hk
        simp [insertAppend, alookup]
      · simp only [insertAppend, if_neg hk, List.map_cons, ih, alookup,
          if_neg hk]
        by_cases hs : (alookup tl id).isSome
        · simp [hs]
        · simp [hs]

theorem nodup_map_fst_insertAppend {α : Type} (m : List (Nat × List α)) (id : Nat)
    (ups : List α) (h : (m.map (·.1)).Nodup) :
    ((insertAppend m id ups).map (·.1)).Nodup := by
  rw [map_fst_insertAppend]
  by_cases hs : (alookup m id).isSome
  · simpa [hs] using h
  · rw [if_neg hs]
    refine List.Nodup.append h (List.nodup_singleton id) ?_
    intro a ha hb
    simp only [List.mem_singleton] at hb
    subst hb
    exact hs (alookup_isSome_of_mem m a ha)

theorem nodup_map_fst_foldl {α : Type} (l : List (Nat × List α))
    (m : List (Nat × List α)) (h : (m.map (·.1)).Nodup) :
    (((l.foldl (fun m p => insertAppend m p.1 p.2) m)).map (·.1)).Nodup := by
  induction l generalizing m with
  | nil => exact h
  | cons hd tl ih => exact ih _ (nodup_map_fst_insertAppend _ _ _ h)

theorem alookup_of_mem_nodup {α : Type} (m : List (Nat × List α)) (k : Nat)
    (vs : List α) (hnd : (m.map (·.1)).Nodup) (hm : (k, vs) ∈ m) :
    alookup m k = some vs := by
  induction m with
  | nil => cases hm
  | cons hd tl ih =>
      obtain ⟨k', v'⟩ := hd
      simp only [List.map_cons, List.nodup_cons] at hnd
      rcases List.mem_cons.1 hm with h | h
      · injection h with h1 h2
        subst h1
        subst h2
        simp [alookup]
      · have hk : k' ≠ k := by
          intro he
          subst he
          exact hnd.1 (by simpa using List.mem_map_of_mem (·.1) h)
        simp [alookup, hk, ih hnd.2 h]

/-! ## Helper lemmas about `group_commit` -/

theorem write_contributions_keys_mem_catalog (catalog : List GlobalId)
    (ts : Timestamp) (ws : List WriteOp) (k : GlobalId)
    (h : k ∈ (write_contributions catalog ts ws).map (·.1)) : k ∈ catalog := by
  simp only [write_contributions, List.map_filterMap, List.mem_filterMap] at h
  obtain ⟨w, _, hw⟩ := h
  by_cases hc : w.id ∈ catalog
  · simp [hc] at hw
    exact hw ▸ hc
  · simp [hc] at hw

theorem write_contributions_filter (catalog : List GlobalId) (ts : Timestamp)
    (ws : List WriteOp) (k : GlobalId) (hk : k ∈ catalog) :
    ((write_contributions catalog ts ws).filter fun p => p.1 = k).map (·.2) =
      (ws.filter fun w => w.id = k).map
        (fun w => w.rows.map fun rd => Update.mk rd.1 rd.2 ts) := by
  induction ws with
  | nil => rfl
  | cons w tl ih =>
      by_cases hc : w.id ∈ catalog
      · by_cases hwk : w.id = k
        · simp only [write_contributions, List.filterMap_cons, hc, if_pos hc,
            List.filter_cons] at ih ⊢
          simp [hwk, ih]
        · simp only [write_contributions, List.filterMap_cons, if_pos hc,
            List.filter_cons] at ih ⊢
          simp [hwk, ih]
      · have hwk : w.id ≠ k := fun he => hc (he ▸ hk)
        simp only [write_contributions, List.filterMap_cons, if_neg hc,
          List.filter_cons] at ih ⊢
        simp [hwk, ih]

theorem flatten_map_map {α β : Type} (l : List α) (f : α → List β) :
    (l.map f).flatten = l.flatMap f :=
  (List.flatMap_def l f).symm

/-- Full characterisation of `group_commit` on a non-empty queue: the clock
steps exactly once, the trace is the single append followed by all the drained
responses in drain order, and every batch belongs to a catalogued id, carries
the common `advance_to`, and holds exactly the FIFO updates for its id at the
common timestamp. -/
theorem group_commit_spec (st : CoordState) (h : st.pending_writes ≠ []) :
    ∃ payload,
      group_commit st =
        ({ st with pending_writes := [], clock := st.clock + 1 },
          CommitEvent.append payload ::
            (st.pending_writes.map (·.pending_txn)).map (fun t =>
              CommitEvent.respond t.client_transmitter t.response t.session
                t.action)) ∧
      ∀ b ∈ payload, b.1 ∈ st.catalog ∧ b.2.2 = st.clock + 1 ∧
        b.2.1 = fifo_updates st st.clock b.1 := by
  have hne : st.pending_writes.isEmpty = false := by
    cases hpw : st.pending_writes with
    | nil => exact absurd hpw h
    | cons a t => rfl
  refine ⟨(write_contributions st.catalog st.clock
      (st.pending_writes.flatMap (·.writes))).foldl
        (fun m p => insertAppend m p.1 p.2) []
      |>.map fun p => (p.1, p.2, st.clock + 1), ?_, ?_⟩
  · unfold group_commit
    rw [hne]
    rfl
  · rintro b hb
    simp only [List.mem_map] at hb
    obtain ⟨p, hmem, heq⟩ := hb
    obtain ⟨k, vs⟩ := p
    subst heq
    have hnd := nodup_map_fst_foldl
      (write_contributions st.catalog st.clock
        (st.pending_writes.flatMap (·.writes))) [] (by simp)
    have hlook := alookup_of_mem_nodup _ k vs hnd hmem
    have hkeys : k ∈ (write_contributions st.catalog st.clock
        (st.pending_writes.flatMap (·.writes))).map (·.1) := by
      rcases alookup_foldl_mem_keys _ [] k vs hlook with h' | h'
      · simp [alookup] at h'
      · exact h'
    have hcat := write_contributions_keys_mem_catalog _ _ _ _ hkeys
    refine ⟨hcat, rfl, ?_⟩
    have hfold := alookup_foldl_insertAppend
      (write_contributions st.catalog st.clock
        (st.pending_writes.flatMap (·.writes))) [] k
    rw [hlook] at hfold
    simp only [alookup, Option.getD_some, Option.getD_none, List.nil_append]
      at hfold
    show vs = fifo_updates st st.clock k
    rw [hfold, write_contributions_filter _ _ _ _ hcat, flatten_map_map,
      fifo_updates]

/-- Every update produced by `fifo_updates` carries the given timestamp. -/
theorem fifo_updates_timestamp (st : CoordState) (ts : Timestamp) (id : GlobalId)
    (u : Update) (h : u ∈ fifo_updates st ts id) : u.timestamp = ts := by
  simp only [fifo_updates, List.mem_flatMap, List.mem_map] at h
  obtain ⟨w, _, rd, _, hu⟩ := h
  subst hu
  rfl

/-! ## Helper lemmas about `send_builtin_table_updates` -/

theorem builtin_foldl_eq (updates : List BuiltinTableUpdate) :
    updates.foldl (fun m u => insertAppend m u.id [(u.row, u.diff)]) [] =
      (updates.map fun u => (u.id, [(u.row, u.diff)])).foldl
        (fun m p => insertAppend m p.1 p.2) [] := by
  rw [List.foldl_map]

theorem alookup_builtin_group (updates : List BuiltinTableUpdate) (k : GlobalId) :
    (alookup (updates.foldl
        (fun m u => insertAppend m u.id [(u.row, u.diff)]) []) k).getD [] =
      builtin_bucket updates k := by
  rw [builtin_foldl_eq, alookup_foldl_insertAppend]
  simp only [alookup, Option.getD_none, List.nil_append]
  induction updates with
  | nil => rfl
  | cons u tl ih =>
      by_cases hk : u.id = k
      · simp only [List.map_cons, List.filter_cons, hk, decide_eq_true_eq,
          builtin_bucket] at ih ⊢
        simp [ih, builtin_bucket]
      · simp only [List.map_cons, List.filter_cons, builtin_bucket] at ih ⊢
        simp [hk, ih, builtin_bucket]

theorem builtin_group_mem (updates : List BuiltinTableUpdate) (k : GlobalId)
    (vs : List (Row × Diff))
    (h : (k, vs) ∈ updates.foldl
        (fun m u => insertAppend m u.id [(u.row, u.diff)]) []) :
    vs = builtin_bucket updates k := by
  rw [builtin_foldl_eq] at h
  have hnd := nodup_map_fst_foldl
    (updates.map fun u => (u.id, [(u.row, u.diff)])) [] (by simp)
  have hlook := alookup_of_mem_nodup _ k vs hnd h
  have := alookup_builtin_group updates k
  rw [builtin_foldl_eq, hlook] at this
  simpa using this

theorem alookup_eq_none_of_not_mem {α : Type} (m : List (Nat × List α)) (k : Nat)
    (h : k ∉ m.map (·.1)) : alookup m k = Option.none := by
  induction m with
  | nil => rfl
  | cons hd tl ih =>
      obtain ⟨k', v⟩ := hd
      simp only [List.map_cons, List.mem_cons] at h
      push_neg at h
      simp [alookup, Ne.symm h.1, ih h.2]

theorem builtin_bucket_of_not_key (updates : List BuiltinTableUpdate)
    (k : GlobalId)
    (h : k ∉ (updates.foldl
        (fun m u => insertAppend m u.id [(u.row, u.diff)]) []).map (·.1)) :
    builtin_bucket updates k = [] := by
  have hnone := alookup_eq_none_of_not_mem _ k h
  have := alookup_builtin_group updates k
  rw [hnone] at this
  simpa using this.symm

theorem consolidate_mem (l : List (Row × Diff)) (r : Row) (d : Diff)
    (h : (r, d) ∈ consolidate l) :
    d = ((l.filter fun p => p.1 = r).map (·.2)).sum ∧ d ≠ 0 := by
  simp only [consolidate, List.mem_filterMap] at h
  obtain ⟨r', _, hr'⟩ := h
  by_cases hs : ((l.filter fun p => p.1 = r').map (·.2)).sum = 0
  · simp [hs] at hr'
  · rw [if_neg hs] at hr'
    injection hr' with hpair
    injection hpair with h1 h2
    subst h1
    subst h2
    exact ⟨rfl, hs⟩

theorem sum_filter_bucket (updates : List BuiltinTableUpdate) (id : GlobalId)
    (r : Row) :
    (((builtin_bucket updates id).filter fun p => p.1 = r).map (·.2)).sum =
      sum_diff updates id r := by
  unfold builtin_bucket sum_diff
  rw [List.filter_map, List.filter_filter, List.map_map]
  have hpred : ∀ u ∈ updates,
      (((fun p : Row × Diff => decide (p.1 = r)) ∘ fun u => (u.row, u.diff)) u &&
        decide (u.id = id)) = decide (u.id = id ∧ u.row = r) := by
    intro u _
    by_cases h1 : u.id = id <;> by_cases h2 : u.row = r <;> simp [h1, h2]
  rw [List.filter_congr hpred]
  rfl

theorem send_builtin_eq (clock : Nat) (updates : List BuiltinTableUpdate) :
    send_builtin_table_updates clock updates =
      if (builtin_payload clock updates).isEmpty then (clock + 1, Option.none)
      else (clock + 1, some (builtin_payload clock updates)) := rfl

theorem builtin_payload_empty_iff (clock : Nat) (updates : List BuiltinTableUpdate) :
    (builtin_payload clock updates).isEmpty = true ↔
      ∀ id, consolidate (builtin_bucket updates id) = [] := by
  unfold builtin_payload
  rw [List.isEmpty_iff, List.map_eq_nil_iff, List.filter_eq_nil_iff]
  constructor
  · intro hall id
    by_cases hkey : id ∈ (builtin_appends0 updates).map (·.1)
    · obtain ⟨q, hq, hid⟩ := List.mem_map.1 hkey
      have hmem : (q.1, consolidate q.2) ∈
          (builtin_appends0 updates).map (fun p => (p.1, consolidate p.2)) :=
        List.mem_map_of_mem _ hq
      have hc : consolidate q.2 = [] := by
        have := hall _ hmem
        simpa [List.isEmpty_iff] using this
      obtain ⟨k, vs⟩ := q
      rw [builtin_group_mem updates k vs hq] at hc
      simp only at hid
      rwa [hid] at hc
    · rw [builtin_bucket_of_not_key updates id hkey]
      rfl
  · intro hb p hp
    simp only [List.mem_map] at hp
    obtain ⟨q, hq, hpq⟩ := hp
    obtain ⟨k, vs⟩ := q
    subst hpq
    have hvs := builtin_group_mem updates k vs hq
    simp [hvs, hb k]

theorem builtin_payload_mem (clock : Nat) (updates : List BuiltinTableUpdate)
    (b : GlobalId × List Update × Timestamp)
    (hb : b ∈ builtin_payload clock updates) :
    b.2.2 = clock + 1 ∧ b.2.1 ≠ [] ∧
      b.2.1 = (consolidate (builtin_bucket updates b.1)).map
        (fun rd => Update.mk rd.1 rd.2 clock) := by
  unfold builtin_payload at hb
  simp only [List.mem_map] at hb
  obtain ⟨q, hq, hbq⟩ := hb
  subst hbq
  rw [List.mem_filter] at hq
  obtain ⟨hq1, hq2⟩ := hq
  simp only [List.mem_map] at hq1
  obtain ⟨q0, hq0, hk⟩ := hq1
  obtain ⟨k0, vs0⟩ := q0
  subst hk
  have hvs := builtin_group_mem updates k0 vs0 hq0
  refine ⟨rfl, ?_, by rw [hvs]⟩
  intro hnil
  rw [List.map_eq_nil_iff] at hnil
  rw [hnil] at hq2
  simp at hq2

/-! ## Claim theorems -/

/-- C1: in every `group_commit`, a drained `WriteOp` whose target id is
absent from the catalog contributes no update to the append payload (every
batch in the payload belongs to a catalogued id, and each batch holds exactly
the updates of the catalogued writes for its id), yet every drained
transaction's buffered response is still sent; the single (awaited) `append`
event precedes every response event in the trace. -/
theorem C1_drop_absorbs_write (st : CoordState) (h : st.pending_writes ≠ []) :
    ∃ payload,
      (group_commit st).2 =
        CommitEvent.append payload ::
          (st.pending_writes.map (·.pending_txn)).map (fun t =>
            CommitEvent.respond t.client_transmitter t.response t.session
              t.action) ∧
      (∀ b ∈ payload, b.1 ∈ st.catalog) ∧
      (∀ b ∈ payload, b.2.1 = fifo_updates st st.clock b.1) := by
  obtain ⟨payload, heq, hb⟩ := group_commit_spec st h
  refine ⟨payload, by rw [heq], fun b hb' => (hb b hb').1,
    fun b hb' => (hb b hb').2.2⟩

/-- Witness for C1 at a concrete state: one pending transaction writing to
the catalogued table 1 and the dropped table 2. -/
theorem C1_drop_absorbs_write_witness :
    ∃ payload,
      (group_commit c1_state).2 =
        CommitEvent.append payload ::
          (c1_state.pending_writes.map (·.pending_txn)).map (fun t =>
            CommitEvent.respond t.client_transmitter t.response t.session
              t.action) ∧
      (∀ b ∈ payload, b.1 ∈ c1_state.catalog) ∧
      (∀ b ∈ payload, b.2.1 = fifo_updates c1_state c1_state.clock b.1) :=
  C1_drop_absorbs_write c1_state (by decide)

/-- C2: a `group_commit` over a non-empty queue obtains exactly one
`(timestamp, advance_to)` pair from the clock (the clock steps once); every
update in every batch carries that single timestamp, every batch carries that
single `advance_to`, and within the batch of any id the updates appear in the
FIFO order in which the pending transactions were drained. -/
theorem C2_group_commit_atomicity (st : CoordState) (h : st.pending_writes ≠ []) :
    (group_commit st).1.clock = st.clock + 1 ∧
    ∃ payload rest, (group_commit st).2 = CommitEvent.append payload :: rest ∧
      ∀ b ∈ payload, b.2.2 = st.clock + 1 ∧
        (∀ u ∈ b.2.1, u.timestamp = st.clock) ∧
        b.2.1 = fifo_updates st st.clock b.1 := by
  obtain ⟨payload, heq, hb⟩ := group_commit_spec st h
  refine ⟨by rw [heq], payload, _, by rw [heq], fun b hb' => ?_⟩
  obtain ⟨_, hadv, hfifo⟩ := hb b hb'
  refine ⟨hadv, fun u hu => ?_, hfifo⟩
  exact fifo_updates_timestamp st st.clock b.1 u (hfifo ▸ hu)

/-- Witness for C2 at a concrete state: two transactions, both writing to
table 1 and one also to table 2. -/
theorem C2_group_commit_atomicity_witness :
    (group_commit c2_state).1.clock = c2_state.clock + 1 ∧
    ∃ payload rest,
      (group_commit c2_state).2 = CommitEvent.append payload :: rest ∧
      ∀ b ∈ payload, b.2.2 = c2_state.clock + 1 ∧
        (∀ u ∈ b.2.1, u.timestamp = c2_state.clock) ∧
        b.2.1 = fifo_updates c2_state c2_state.clock b.1 :=
  C2_group_commit_atomicity c2_state (by decide)

/-- C3: when `try_group_commit` runs with pending writes and the peeked local
timestamp strictly exceeds `now`, no commit happens — the state is untouched,
no events are emitted, and a retry is scheduled after exactly
`min(ts - now, 1000)` milliseconds. -/
theorem C3_try_group_commit_clock_ahead (st : CoordState) (now : Nat)
    (write_lock_free : Bool) (h : st.pending_writes ≠ [])
    (hgt : peek_local_ts st.clock > now) :
    try_group_commit st now write_lock_free =
      (st, [], TryCommitAction.retry (min (peek_local_ts st.clock - now) 1000)) := by
  have hne : st.pending_writes.isEmpty = false := by
    cases hpw : st.pending_writes with
    | nil => exact absurd hpw h
    | cons a t => rfl
  unfold try_group_commit
  rw [hne]
  simp [hgt]

/-- Witness for C3 at the two concrete scenarios of the claim: a retry after
400 ms when the peeked timestamp is 500 and `now` is 100, and after the
1000 ms cap when the peeked timestamp is 10_000_000 and `now` is 0. -/
theorem C3_try_group_commit_clock_ahead_witness :
    try_group_commit c3_state_a 100 true =
      (c3_state_a, [], TryCommitAction.retry 400) ∧
    try_group_commit c3_state_b 0 true =
      (c3_state_b, [], TryCommitAction.retry 1000) := by
  constructor
  · exact C3_try_group_commit_clock_ahead c3_state_a 100 true (by decide)
      (by decide)
  · exact C3_try_group_commit_clock_ahead c3_state_b 0 true (by decide)
      (by decide)

/-- C4: `send_builtin_table_updates` steps the clock once; updates are
bucketed per id and consolidated (every surviving update's diff is the net
diff of its `(id, row)` and is nonzero), buckets that become empty are
dropped (every issued batch is non-empty), every update carries the stepped
timestamp and every batch the matching `advance_to`, and when no bucket
survives consolidation no append is issued at all. -/
theorem C4_send_builtin_consolidation (clock : Nat)
    (updates : List BuiltinTableUpdate) :
    (send_builtin_table_updates clock updates).1 = clock + 1 ∧
    ((send_builtin_table_updates clock updates).2 = Option.none ↔
      ∀ id, consolidate (builtin_bucket updates id) = []) ∧
    ∀ pl, (send_builtin_table_updates clock updates).2 = some pl →
      pl ≠ [] ∧
      ∀ b ∈ pl, b.2.2 = clock + 1 ∧ b.2.1 ≠ [] ∧
        b.2.1 = (consolidate (builtin_bucket updates b.1)).map
          (fun rd => Update.mk rd.1 rd.2 clock) ∧
        ∀ u ∈ b.2.1, u.diff = sum_diff updates b.1 u.row ∧ u.diff ≠ 0 := by
  rw [send_builtin_eq]
  by_cases hemp : (builtin_payload clock updates).isEmpty = true
  · rw [if_pos hemp]
    refine ⟨rfl, ?_, ?_⟩
    · exact ⟨fun _ => (builtin_payload_empty_iff clock updates).1 hemp,
        fun _ => rfl⟩
    · intro pl hpl
      cases hpl
  · rw [if_neg hemp]
    refine ⟨rfl, ?_, ?_⟩
    · constructor
      · intro h
        cases h
      · intro hall
        exact absurd ((builtin_payload_empty_iff clock updates).2 hall) hemp
    · intro pl hpl
      injection hpl with hpl
      subst hpl
      constructor
      · intro hnil
        exact hemp (by rw [hnil]; rfl)
      · intro b hb
        obtain ⟨hadv, hne, hform⟩ := builtin_payload_mem clock updates b hb
        refine ⟨hadv, hne, hform, ?_⟩
        intro u hu
        rw [hform] at hu
        simp only [List.mem_map] at hu
        obtain ⟨rd, hrd, hu⟩ := hu
        obtain ⟨r, d⟩ := rd
        subst hu
        obtain ⟨hd, hdne⟩ := consolidate_mem _ r d hrd
        refine ⟨?_, hdne⟩
        show d = sum_diff updates b.1 r
        rw [hd]
        exact sum_filter_bucket updates b.1 r

/-- Witness for C4 at the concrete scenario of the spec: two cancelling
updates for row `[8]` of table 1 and one surviving update for row `[9]`. -/
theorem C4_send_builtin_consolidation_witness :
    (send_builtin_table_updates 5 c4_updates).1 = 5 + 1 ∧
    ((send_builtin_table_updates 5 c4_updates).2 = Option.none ↔
      ∀ id, consolidate (builtin_bucket c4_updates id) = []) ∧
    ∀ pl, (send_builtin_table_updates 5 c4_updates).2 = some pl →
      pl ≠ [] ∧
      ∀ b ∈ pl, b.2.2 = 5 + 1 ∧ b.2.1 ≠ [] ∧
        b.2.1 = (consolidate (builtin_bucket c4_updates b.1)).map
          (fun rd => Update.mk rd.1 rd.2 5) ∧
        ∀ u ∈ b.2.1, u.diff = sum_diff c4_updates b.1 u.row ∧ u.diff ≠ 0 :=
  C4_send_builtin_consolidation 5 c4_updates

/-! ## Planner claim theorems -/

/-- Planning the `sqlBetween` AST node agrees with `plan_between` (the source
routes the node through `plan_between`, which rebuilds and replans the
lowered AST; the embedding inlines that round trip). -/
theorem plan_expr_between (ctx : ExprContext) (x low high : ASTNode)
    (negated : Bool) (rel : SQLRelationExpr) :
    plan_expr ctx (ASTNode.sqlBetween x low high negated) rel =
      plan_between ctx x low high negated rel := by
  cases negated <;>
  · simp only [plan_between, betweenAst, plan_expr, Bool.false_eq_true,
      if_false, if_true]
    cases plan_expr ctx x rel <;> cases plan_expr ctx low rel <;>
      cases plan_expr ctx high rel <;>
        simp [Except.bind, Bind.bind]

/-- C7 counterexample: `plan_literal` rejects a national string literal
instead of mapping it to a `String` datum as the claim states. -/
theorem C7_counterexample :
    plan_literal (Value.nationalStringLiteral "a") =
      Except.error "national string literals are not supported" := rfl

/-- C7 (amended): `plan_literal` maps integer literals to `Int64`, floats to
`Float64`, single-quoted strings to `String`, booleans to `Bool`, and NULL to
the `Null` type with nullability true (all others non-nullable); it fails on
national string, hex, DATE, TIME, TIMESTAMP and INTERVAL literals. -/
theorem C7_plan_literal_mapping :
    (∀ i, plan_literal (Value.long i) =
      Except.ok (ScalarExpr.literal (Datum.int64 i),
        ⟨Option.none, false, ScalarType.int64⟩)) ∧
    (∀ f, plan_literal (Value.double f) =
      Except.ok (ScalarExpr.literal (Datum.float64 f),
        ⟨Option.none, false, ScalarType.float64⟩)) ∧
    (∀ s, plan_literal (Value.singleQuotedString s) =
      Except.ok (ScalarExpr.literal (Datum.string s),
        ⟨Option.none, false, ScalarType.string⟩)) ∧
    (∀ b, plan_literal (Value.boolean b) =
      Except.ok (ScalarExpr.literal (if b then Datum.dtrue else Datum.dfalse),
        ⟨Option.none, false, ScalarType.bool⟩)) ∧
    plan_literal Value.null =
      Except.ok (ScalarExpr.literal Datum.null,
        ⟨Option.none, true, ScalarType.null⟩) ∧
    (∀ s, (plan_literal (Value.nationalStringLiteral s)).isOk = false) ∧
    (∀ s, (plan_literal (Value.hexStringLiteral s)).isOk = false) ∧
    (∀ s, (plan_literal (Value.date s)).isOk = false) ∧
    (∀ s, (plan_literal (Value.time s)).isOk = false) ∧
    (∀ s, (plan_literal (Value.timestamp s)).isOk = false) ∧
    (plan_literal Value.interval).isOk = false := by
  refine ⟨fun i => rfl, fun f => rfl, fun s => rfl, fun b => ?_, rfl,
    fun s => rfl, fun s => rfl, fun s => rfl, fun s => rfl, fun s => rfl, rfl⟩
  cases b <;> rfl

/-- C8: BETWEEN planning is exactly the planning of the lowered comparison
conjunction — `plan_between` on `x BETWEEN low AND high` returns precisely
what planning `x >= low AND x <= high` returns (including failures), and NOT
BETWEEN returns what planning `x < low OR x > high` returns; planning the
`sqlBetween` AST node itself agrees as well. -/
theorem C8_between_lowering (ctx : ExprContext) (x low high : ASTNode)
    (rel : SQLRelationExpr) :
    plan_between ctx x low high false rel =
      plan_expr ctx (ASTNode.sqlBinaryOp SQLBinaryOperator.and
        (ASTNode.sqlBinaryOp SQLBinaryOperator.gtEq x low)
        (ASTNode.sqlBinaryOp SQLBinaryOperator.ltEq x high)) rel ∧
    plan_between ctx x low high true rel =
      plan_expr ctx (ASTNode.sqlBinaryOp SQLBinaryOperator.or
        (ASTNode.sqlBinaryOp SQLBinaryOperator.lt x low)
        (ASTNode.sqlBinaryOp SQLBinaryOperator.gt x high)) rel ∧
    plan_expr ctx (ASTNode.sqlBetween x low high false) rel =
      plan_expr ctx (ASTNode.sqlBinaryOp SQLBinaryOperator.and
        (ASTNode.sqlBinaryOp SQLBinaryOperator.gtEq x low)
        (ASTNode.sqlBinaryOp SQLBinaryOperator.ltEq x high)) rel ∧
    plan_expr ctx (ASTNode.sqlBetween x low high true) rel =
      plan_expr ctx (ASTNode.sqlBinaryOp SQLBinaryOperator.or
        (ASTNode.sqlBinaryOp SQLBinaryOperator.lt x low)
        (ASTNode.sqlBinaryOp SQLBinaryOperator.gt x high)) rel := by
  refine ⟨rfl, rfl, ?_, ?_⟩
  · rw [plan_expr_between]
    rfl
  · rw [plan_expr_between]
    rfl

/-- C6 counterexample: modulus of two non-nullable Int64 columns plans with
a NON-nullable result (the claim says integer modulus is nullable), and
modulus of an Int32 and an Int64 column fails instead of being coalesced. -/
theorem C6_counterexample :
    plan_expr c6_ctx (ASTNode.sqlBinaryOp SQLBinaryOperator.modulus
        (ASTNode.sqlIdentifier "x") (ASTNode.sqlIdentifier "y")) c6_rel =
      Except.ok (ScalarExpr.callBinary BinaryFunc.modInt64
          (ScalarExpr.column 0) (ScalarExpr.column 1),
        ⟨Option.none, false, ScalarType.int64⟩) ∧
    plan_expr c6_ctx (ASTNode.sqlBinaryOp SQLBinaryOperator.modulus
        (ASTNode.sqlIdentifier "x") (ASTNode.sqlIdentifier "y")) c6_rel_mixed =
      Except.error "no overload for the modulus operand types" := by
  constructor <;> rfl

/-- C6 (amended): for `+ - * /` the operands are run through
`try_coalesce_types` before overload selection: when the pair is coalescible
(every numeric pair except Int32 with Int64, for which the cast table has no
entry and planning fails) the casts of the table are inserted, the result's
scalar type equals the coalesced maximum type, and integer division is
nullable even when both operands are non-nullable; the modulus operator is
NOT coalesced — its operands must already share a scalar type (planning
fails otherwise) and its result's nullability is just the disjunction of the
operands' nullabilities. -/
theorem C6_binary_arith_typing (lst rst : ScalarType) (nm1 nm2 : Option String)
    (n1 n2 : Bool) (le re : ScalarExpr)
    (hl : lst ∈ numeric_types) (hr : rst ∈ numeric_types) :
    (∀ op ∈ [SQLBinaryOperator.plus, SQLBinaryOperator.minus,
        SQLBinaryOperator.multiply, SQLBinaryOperator.divide],
      (¬((lst = ScalarType.int32 ∧ rst = ScalarType.int64) ∨
          (lst = ScalarType.int64 ∧ rst = ScalarType.int32)) →
        plan_binary_op op (le, ⟨nm1, n1, lst⟩) (re, ⟨nm2, n2, rst⟩) =
          Except.ok (ScalarExpr.callBinary (arith_func op (max_numeric lst rst))
              (cast_to lst (max_numeric lst rst) le)
              (cast_to rst (max_numeric lst rst) re),
            ⟨Option.none,
              n1 || n2 || (decide (op = SQLBinaryOperator.divide) &&
                decide (max_numeric lst rst ∈
                  [ScalarType.int32, ScalarType.int64])),
              max_numeric lst rst⟩)) ∧
      (((lst = ScalarType.int32 ∧ rst = ScalarType.int64) ∨
          (lst = ScalarType.int64 ∧ rst = ScalarType.int32)) →
        plan_binary_op op (le, ⟨nm1, n1, lst⟩) (re, ⟨nm2, n2, rst⟩) =
          Except.error (op.display ++ " does not have uniform type"))) ∧
    (lst = rst →
      plan_binary_op SQLBinaryOperator.modulus
          (le, ⟨nm1, n1, lst⟩) (re, ⟨nm2, n2, rst⟩) =
        Except.ok (ScalarExpr.callBinary (mod_func lst) le re,
          ⟨Option.none, n1 || n2, lst⟩)) ∧
    (lst ≠ rst →
      plan_binary_op SQLBinaryOperator.modulus
          (le, ⟨nm1, n1, lst⟩) (re, ⟨nm2, n2, rst⟩) =
        Except.error "no overload for the modulus operand types") := by
  simp only [numeric_types, List.mem_cons, List.not_mem_nil, or_false] at hl hr
  rcases hl with rfl | rfl | rfl | rfl <;>
    rcases hr with rfl | rfl | rfl | rfl <;>
      refine ⟨?_, ?_, ?_⟩ <;>
        first
        | (intro op hop
           simp only [List.mem_cons, List.not_mem_nil, or_false] at hop
           rcases hop with rfl | rfl | rfl | rfl <;>
             refine ⟨fun hmix => ?_, fun hmix => ?_⟩ <;>
               first
               | exact absurd hmix (by decide)
               | exact absurd (by decide) hmix
               | (cases n1 <;> cases n2 <;> rfl))
        | (intro h
           first
           | exact absurd h (by decide)
           | exact absurd rfl h
           | (cases n1 <;> cases n2 <;> rfl))

def c6_witness_typ : ColumnType := ⟨Option.none, false, ScalarType.int64⟩

/-- Witness for C6 at Int64 operands: nullable Int64 division, non-nullable
Int64 modulus. -/
theorem C6_binary_arith_typing_witness :
    plan_binary_op SQLBinaryOperator.divide
        (ScalarExpr.column 0, c6_witness_typ)
        (ScalarExpr.column 1, c6_witness_typ) =
      Except.ok (ScalarExpr.callBinary
          (arith_func SQLBinaryOperator.divide
            (max_numeric ScalarType.int64 ScalarType.int64))
          (cast_to ScalarType.int64
            (max_numeric ScalarType.int64 ScalarType.int64)
            (ScalarExpr.column 0))
          (cast_to ScalarType.int64
            (max_numeric ScalarType.int64 ScalarType.int64)
            (ScalarExpr.column 1)),
        ⟨Option.none,
          false || false || (decide (SQLBinaryOperator.divide =
              SQLBinaryOperator.divide) &&
            decide (max_numeric ScalarType.int64 ScalarType.int64 ∈
              [ScalarType.int32, ScalarType.int64])),
          max_numeric ScalarType.int64 ScalarType.int64⟩) ∧
    plan_binary_op SQLBinaryOperator.modulus
        (ScalarExpr.column 0, c6_witness_typ)
        (ScalarExpr.column 1, c6_witness_typ) =
      Except.ok (ScalarExpr.callBinary (mod_func ScalarType.int64)
          (ScalarExpr.column 0) (ScalarExpr.column 1),
        ⟨Option.none, false || false, ScalarType.int64⟩) :=
  ⟨((C6_binary_arith_typing ScalarType.int64 ScalarType.int64 Option.none
      Option.none false false (ScalarExpr.column 0) (ScalarExpr.column 1)
      (by decide) (by decide)).1 SQLBinaryOperator.divide (by decide)).1
      (by decide),
   (C6_binary_arith_typing ScalarType.int64 ScalarType.int64 Option.none
      Option.none false false (ScalarExpr.column 0) (ScalarExpr.column 1)
      (by decide) (by decide)).2.1 rfl⟩

/-- C5 counterexample: planning `SELECT 1 UNION SELECT 1.0` does NOT succeed
(the claim says it yields a Float64 column) — UNION performs no type
coalescing and rejects the Int64/Float64 column pair. -/
theorem C5_counterexample :
    (plan_set_expr dual_planner union_int_float).isOk = false := by decide

/-- C5 (amended): UNION requires the operand column scalar types to match
exactly — no coalescing ladder is applied.  Both `SELECT 1 UNION SELECT 1.0`
and `SELECT 1 UNION SELECT a-string` fail with the same-column-types error,
and in general a UNION of two planned operands with equal arity but any
differing column scalar type fails with that error. -/
theorem C5_union_exact_types :
    plan_set_expr dual_planner union_int_float =
      Except.error "Each UNION should have the same column types" ∧
    plan_set_expr dual_planner union_int_string =
      Except.error "Each UNION should have the same column types" ∧
    ∀ (p : Planner) (all : Bool) (left right : SQLSetExpr)
      (lre : RelationExpr) (lty : RelationType) (rre : RelationExpr)
      (rty : RelationType),
      plan_set_expr p left = Except.ok (lre, lty) →
      plan_set_expr p right = Except.ok (rre, rty) →
      lty.column_types.length = rty.column_types.length →
      (∃ lr ∈ lty.column_types.zip rty.column_types,
        lr.1.scalar_type ≠ lr.2.scalar_type) →
      plan_set_expr p (SQLSetExpr.setOperationUnion all left right) =
        Except.error "Each UNION should have the same column types" := by
  refine ⟨by decide, by decide, ?_⟩
  intro p all left right lre lty rre rty hl hr hlen hex
  have hany : (lty.column_types.zip rty.column_types).any
      (fun lr => lr.1.scalar_type != lr.2.scalar_type) = true := by
    rw [List.any_eq_true]
    obtain ⟨lr, hmem, hne⟩ := hex
    exact ⟨lr, hmem, by simpa [bne_iff_ne] using hne⟩
  simp [plan_set_expr, hl, hr, Except.bind, Bind.bind, hlen, hany]

/-- Witness for C5: the general UNION mismatch rule applied to the two
planned operands of `SELECT 1 UNION SELECT 1.0`. -/
theorem C5_union_exact_types_witness :
    plan_set_expr dual_planner union_int_float =
      Except.error "Each UNION should have the same column types" := by
  refine C5_union_exact_types.2.2 dual_planner false
    (select_value (Value.long 1)) (select_value (Value.double 1))
    (RelationExpr.project (RelationExpr.map (RelationExpr.get "dual")
      [ScalarExpr.literal (Datum.int64 1)]) [0])
    ⟨[⟨Option.none, false, ScalarType.int64⟩]⟩
    (RelationExpr.project (RelationExpr.map (RelationExpr.get "dual")
      [ScalarExpr.literal (Datum.float64 1)]) [0])
    ⟨[⟨Option.none, false, ScalarType.float64⟩]⟩
    (by decide) (by decide) rfl ?_
  exact ⟨(⟨Option.none, false, ScalarType.int64⟩,
    ⟨Option.none, false, ScalarType.float64⟩), by decide, by decide⟩

/-- `handle_select` factored through `plan_view_query`: the only use of the
random id is the transient view name. -/
theorem handle_select_eq (p : Planner) (q : SQLQuery) (i : Nat) :
    handle_select p q i =
      match plan_view_query p q with
      | Except.error e => Except.error e
      | Except.ok rt =>
          Except.ok (SqlResponse.peeking rt.2,
            DataflowCommand.peekTransient
              ⟨"<temp_" ++ toString i ++ ">", rt.1, rt.2⟩) := by
  cases h : plan_view_query p q with
  | error e =>
      simp [handle_select, plan_statement, h, extract_sql_object_name,
        Except.bind, Bind.bind]
  | ok rt =>
      obtain ⟨re, ty⟩ := rt
      simp [handle_select, plan_statement, h, extract_sql_object_name,
        Except.bind, Bind.bind]

/-- C9 counterexample: planning the same `SELECT 1` twice with two different
random draws yields different results (the transient view names differ), so
planning a SELECT is not a function of the statement and catalog alone. -/
theorem C9_counterexample :
    handle_select dual_planner c9_query 0 ≠
      handle_select dual_planner c9_query 1 := by
  decide

/-- C9 (amended): planning is deterministic up to the transient name — two
invocations of `handle_select` on the same query and catalog either fail with
the same error or succeed with the same response type and the same view
relation expression and type, differing only in the random transient view
name (so when the random ids differ the dataflows themselves differ). -/
theorem C9_planning_deterministic_up_to_name (p : Planner) (q : SQLQuery)
    (i j : Nat) :
    (∃ e, handle_select p q i = Except.error e ∧
      handle_select p q j = Except.error e) ∨
    ∃ re typ,
      handle_select p q i = Except.ok (SqlResponse.peeking typ,
        DataflowCommand.peekTransient
          ⟨"<temp_" ++ toString i ++ ">", re, typ⟩) ∧
      handle_select p q j = Except.ok (SqlResponse.peeking typ,
        DataflowCommand.peekTransient
          ⟨"<temp_" ++ toString j ++ ">", re, typ⟩) := by
  rw [handle_select_eq p q i, handle_select_eq p q j]
  cases h : plan_view_query p q with
  | error e => exact Or.inl ⟨e, rfl, rfl⟩
  | ok rt => exact Or.inr ⟨rt.1, rt.2, rfl, rfl⟩

/-! ## Helper lemmas about the dataflow store and `handle_drop_dataflow` -/

theorem cascade_names_mem (fuel : Nat) (store : List Dataflow)
    (names : List String) (x : String) (hx : x ∈ names) :
    x ∈ cascade_names fuel store names := by
  induction fuel generalizing names with
  | zero => exact hx
  | succ n ih => exact ih _ (by simp [cascade_step, hx])

theorem remove_subset (store : DataflowStore) (name : String) (mode : RemoveMode)
    (store' : DataflowStore) (removed : List Dataflow)
    (h : store.remove name mode = Except.ok (store', removed)) :
    ∀ d ∈ store'.dataflows, d ∈ store.dataflows := by
  cases mode with
  | restrict =>
      simp only [DataflowStore.remove] at h
      by_cases hc : store.dataflows.any
          (fun d => (d.name != name) && d.uses.contains name) = true
      · rw [if_pos hc] at h
        cases h
      · rw [if_neg hc] at h
        injection h with hpair
        injection hpair with h1 h2
        intro d hd
        rw [← h1] at hd
        exact List.mem_of_mem_filter hd
  | cascade =>
      simp only [DataflowStore.remove] at h
      injection h with hpair
      injection hpair with h1 h2
      intro d hd
      rw [← h1] at hd
      exact List.mem_of_mem_filter hd

theorem remove_kills_name (store : DataflowStore) (name : String)
    (mode : RemoveMode) (store' : DataflowStore) (removed : List Dataflow)
    (h : store.remove name mode = Except.ok (store', removed)) :
    ∀ d ∈ store'.dataflows, d.name ≠ name := by
  cases mode with
  | restrict =>
      simp only [DataflowStore.remove] at h
      by_cases hc : store.dataflows.any
          (fun d => (d.name != name) && d.uses.contains name) = true
      · rw [if_pos hc] at h
        cases h
      · rw [if_neg hc] at h
        injection h with hpair
        injection hpair with h1 h2
        intro d hd
        rw [← h1] at hd
        have := List.of_mem_filter hd
        simpa [bne_iff_ne] using this
  | cascade =>
      simp only [DataflowStore.remove] at h
      injection h with hpair
      injection hpair with h1 h2
      intro d hd heq
      rw [← h1] at hd
      have hmem := List.of_mem_filter hd
      have hseed : name ∈ cascade_names store.dataflows.length store.dataflows
          [name] := cascade_names_mem _ _ _ _ (by simp)
      rw [heq] at hmem
      have hnotin : name ∉ cascade_names store.dataflows.length store.dataflows
          [name] := by simpa using hmem
      exact hnotin hseed

theorem drop_loop_kills (mode : RemoveMode) (names : List String)
    (store : DataflowStore) (acc : List Dataflow) (store' : DataflowStore)
    (removed : List Dataflow)
    (h : drop_loop mode names store acc = (store', Except.ok removed)) :
    (∀ d ∈ store'.dataflows, d ∈ store.dataflows) ∧
    ∀ n ∈ names, ∀ d ∈ store'.dataflows, d.name ≠ n := by
  induction names generalizing store acc with
  | nil =>
      simp only [drop_loop] at h
      injection h with h1 h2
      subst h1
      exact ⟨fun d hd => hd, by simp⟩
  | cons n rest ih =>
      simp only [drop_loop] at h
      cases hr : store.remove n mode with
      | error e =>
          rw [hr] at h
          injection h with h1 h2
          cases h2
      | ok pr =>
          obtain ⟨store1, newly⟩ := pr
          rw [hr] at h
          have hrec := ih store1 (acc ++ newly) h
          refine ⟨fun d hd => remove_subset store n mode store1 newly hr d
            (hrec.1 d hd), ?_⟩
          intro m hm d hd
          rcases List.mem_cons.1 hm with hmn | hmn
          · subst hmn
            exact remove_kills_name store m mode store1 newly hr d (hrec.1 d hd)
          · exact hrec.2 m hmn d hd

/-- C10: for a DROP whose object type is SINK (any type other than SOURCE,
TABLE or VIEW), `handle_drop_dataflow` can never produce a success response —
building the response hits the `unreachable!()` arm — and when it panics the
named dataflows have already been removed from the catalog, so a sink can
never be dropped successfully. -/
theorem C10_drop_sink_panics (p : Planner) (if_exists : Bool)
    (names : List (List String)) (cascade : Bool) :
    (∀ resp cmd,
      (handle_drop_dataflow p SQLObjectType.sink if_exists names cascade).2 ≠
        PlanOutcome.ok resp cmd) ∧
    ((handle_drop_dataflow p SQLObjectType.sink if_exists names cascade).2 =
        PlanOutcome.panic →
      ∀ nameStrs, names.mapM extract_sql_object_name = Except.ok nameStrs →
        ∀ n ∈ nameStrs,
          ∀ d ∈ (handle_drop_dataflow p SQLObjectType.sink if_exists names
              cascade).1.dataflows.dataflows, d.name ≠ n) := by
  unfold handle_drop_dataflow
  cases hm : names.mapM extract_sql_object_name with
  | error e =>
      dsimp only
      constructor
      · intro resp cmd h
        cases h
      · intro h
        cases h
  | ok nameStrs =>
      dsimp only
      cases hv : (if if_exists then Except.ok () else
          nameStrs.foldlM (fun _ n => (p.dataflows.get n).map fun _ => ()) ()) with
      | error e =>
          dsimp only
          constructor
          · intro resp cmd h
            cases h
          · intro h
            cases h
      | ok u =>
          dsimp only
          cases hd : drop_loop (RemoveMode.from_cascade cascade) nameStrs
              p.dataflows [] with
          | mk store1 res =>
              cases res with
              | error e =>
                  dsimp only
                  constructor
                  · intro resp cmd h
                    cases h
                  · intro h
                    cases h
              | ok removed =>
                  dsimp only
                  constructor
                  · intro resp cmd h
                    cases h
                  · intro _ ns hns m hmem d hdm
                    injection hns with hns
                    subst hns
                    exact (drop_loop_kills _ _ _ _ _ _ hd).2 m hmem d hdm

/-- Witness for C10: dropping the sink `snk` from a concrete store removes it
from the catalog and then panics instead of producing a response. -/
theorem C10_drop_sink_panics_witness :
    (handle_drop_dataflow c10_planner SQLObjectType.sink false [["snk"]]
        false).2 = PlanOutcome.panic ∧
    ∀ d ∈ (handle_drop_dataflow c10_planner SQLObjectType.sink false [["snk"]]
        false).1.dataflows.dataflows, d.name ≠ "snk" := by
  refine ⟨by decide, ?_⟩
  exact (C10_drop_sink_panics c10_planner false [["snk"]] false).2
    (by decide) ["snk"] rfl "snk" (by decide)

end Materialize
